import Mathlib

/-!
Verification development for the multi-agent parallel execution scheduler
(`scripts/multi_agent_parallel_execution.py`): the task queue, the
capability- and load-aware agent selector, the dispatcher batch step, the
executor-completion updates, the health-monitor sweep, the performance
tracker and the status report.  Python floats are modelled by `ℚ`
(exact-arithmetic semantics), Python dictionaries by association lists in
insertion order, and each loop body by a pure state-transition function.
-/

attribute [local semireducible] Rat.add Rat.mul Rat.sub Rat.inv

namespace MultiAgent

/-- Agent status enumeration (`AgentStatus` in the source). -/
inductive AgentStatus where
  | idle
  | busy
  | error
  | offline
deriving DecidableEq

/-- Task priority levels (`TaskPriority` in the source). -/
inductive TaskPriority where
  | low
  | normal
  | high
  | critical
deriving DecidableEq

/-- Numeric value of a priority (`TaskPriority.value`: LOW=1 … CRITICAL=4). -/
def TaskPriority.value : TaskPriority → Nat
  | .low => 1
  | .normal => 2
  | .high => 3
  | .critical => 4

/-- Result dictionary returned by an executor (`MockBrowserAgent.execute_task`).
Only the keys the scheduler reads are modelled: `success`, `error`,
`execution_time`. -/
structure ExecResult where
  success : Bool
  errorMsg : Option String
  executionTime : ℚ
deriving DecidableEq

/-- Outcome of one executor invocation as seen by `_execute_task`: either the
awaited call returns a result dictionary, or it raises an exception. -/
inductive ExecOutcome where
  | ok (r : ExecResult)
  | exn (msg : String)
deriving DecidableEq

/-- Task data structure (dataclass `Task` in the source). -/
structure Task where
  id : String
  name : String
  description : String
  url : String
  actions : List String
  priority : TaskPriority
  timeout : Nat
  retryCount : Nat
  createdAt : Option ℚ := none
  assignedAgent : Option String := none
  startedAt : Option ℚ := none
  completedAt : Option ℚ := none
  result : Option ExecResult := none
  errorField : Option String := none
deriving DecidableEq

/-- Agent data structure (dataclass `Agent` in the source). -/
structure Agent where
  id : String
  name : String
  status : AgentStatus
  currentTask : Option String
  completedTasks : Nat
  failedTasks : Nat
  totalExecutionTime : ℚ
  lastActivity : ℚ
  capabilities : List String
  maxConcurrentTasks : Nat := 1
deriving DecidableEq

/-- Aggregate counters (`AgentManager.stats`). -/
structure Stats where
  totalTasks : Nat
  completedTasks : Nat
  failedTasks : Nat
  averageExecutionTime : ℚ
  startTime : ℚ
deriving DecidableEq

/-- Manager state: agent map (insertion-ordered association list keyed by
`Agent.id`), priority queue, active-task map (keyed by `Task.id`) and
completed list (`AgentManager.__init__`). -/
structure ManagerState where
  agents : List Agent
  taskQueue : List Task
  activeTasks : List Task
  completedTasks : List Task
  stats : Stats
deriving DecidableEq

/-- Identifiers of all tasks held in the three collections, in order
queue, active, completed. -/
def ManagerState.taskIds (s : ManagerState) : List String :=
  s.taskQueue.map (·.id) ++ s.activeTasks.map (·.id) ++ s.completedTasks.map (·.id)

/-! ### String helpers: Python `in` (substring test) and `str.lower` -/

/-- Sublist-containment on character lists: Python `needle in haystack`. -/
def containsSub (needle : List Char) : List Char → Bool
  | [] => needle.isPrefixOf []
  | c :: rest => needle.isPrefixOf (c :: rest) || containsSub needle rest

/-- Substring test: Python `needle in haystack` on strings. -/
def strContains (haystack needle : String) : Bool :=
  containsSub needle.toList haystack.toList

/-- Lower-casing, Python `str.lower()` (ASCII-adequate for the keywords used). -/
def lowerStr (s : String) : String :=
  String.mk (s.toList.map Char.toLower)

/-! ### Selector (`_extract_task_requirements`, `_select_best_agent`) -/

/-- Required capabilities inferred from the description
(`AgentManager._extract_task_requirements`). -/
def extractTaskRequirements (t : Task) : List String :=
  let d := lowerStr t.description
  let r : List String :=
    (if strContains d "form" then ["form_filling"] else []) ++
    (if strContains d "scrape" || strContains d "extract" then ["scraping"] else []) ++
    (if strContains d "test" then ["testing"] else []) ++
    (if strContains d "monitor" then ["monitoring"] else [])
  if r = [] then ["general"] else r

/-- Cardinality of `set(xs) & set(ys)`: distinct members of `xs` that occur
in `ys`. -/
def interCard (xs ys : List String) : Nat :=
  (xs.eraseDups.filter (fun s => ys.contains s)).length

/-- Score computed per candidate inside `_select_best_agent`, in source order:
capability matching, load-balancing bonus or decay, reliability bonus. -/
def agentScore (t : Task) (a : Agent) : ℚ :=
  let reqs := extractTaskRequirements t
  let matching : Nat := interCard a.capabilities reqs
  let s1 : ℚ := (matching : ℚ) * 10
  let s2 : ℚ := if a.completedTasks = 0 then s1 + 5
                else s1 - (a.completedTasks : ℚ) * (1/10)
  if a.completedTasks > 0 then
    s2 + ((a.completedTasks : ℚ) / ((a.completedTasks : ℚ) + (a.failedTasks : ℚ))) * 5
  else s2

/-- Dictionary lookup `self.agents[agent_id]` on the association list. -/
def findAgent (agents : List Agent) (id : String) : Option Agent :=
  agents.find? (fun a => a.id = id)

/-- Candidate loop of `_select_best_agent`, carrying `best_agent` and
`best_score` (initialised to `none` and `-1`).  An identifier missing from
the agent map is skipped; the caller only passes identifiers of the map. -/
def selectGo (agents : List Agent) (t : Task) :
    List String → Option String → ℚ → Option String
  | [], best, _ => best
  | id :: rest, best, bestScore =>
    match findAgent agents id with
    | none => selectGo agents t rest best bestScore
    | some a =>
      if agentScore t a > bestScore then
        selectGo agents t rest (some id) (agentScore t a)
      else
        selectGo agents t rest best bestScore

/-- Selector (`AgentManager._select_best_agent`). -/
def selectBestAgent (agents : List Agent) (t : Task) (available : List String) :
    Option String :=
  selectGo agents t available none (-1)

/-- Score of a candidate identifier under the agent map (0 for an identifier
the map does not resolve; never reached on the caller's inputs). -/
def scoreOf (agents : List Agent) (t : Task) (id : String) : ℚ :=
  match findAgent agents id with
  | some a => agentScore t a
  | none => 0

/-- Modelled from the spec: the first candidate attaining the maximal score,
with that score — "Highest score wins; ties resolved by iteration order
(first candidate reaching the max)". -/
def firstArgmax (agents : List Agent) (t : Task) : List String → Option (String × ℚ)
  | [] => none
  | id :: rest =>
    match firstArgmax agents t rest with
    | none => some (id, scoreOf agents t id)
    | some (j, sj) =>
      if scoreOf agents t id ≥ sj then some (id, scoreOf agents t id)
      else some (j, sj)

/-- Modelled from the spec: score formula of §4.2 written exactly as the spec
states it — 10 × |capabilities ∩ required|, plus +5 for a fresh agent or
−0.1 × completed otherwise, plus 5 × completed/(completed+failed) whenever
completed+failed > 0. -/
def specScore (t : Task) (a : Agent) : ℚ :=
  10 * (interCard a.capabilities (extractTaskRequirements t) : ℚ)
  + (if a.completedTasks = 0 then 5 else -(1/10) * (a.completedTasks : ℚ))
  + (if a.completedTasks + a.failedTasks > 0 then
       5 * ((a.completedTasks : ℚ) / ((a.completedTasks : ℚ) + (a.failedTasks : ℚ)))
     else 0)

/-- Modelled from the spec: keyword inference of §4.2 — "form"→form_filling,
"scrape"/"extract"→scraping, "test"→testing, "monitor"→monitoring, default
{"general"}. -/
def specRequirements (t : Task) : List String :=
  let d := lowerStr t.description
  let r : List String :=
    (if strContains d "form" then ["form_filling"] else []) ++
    (if strContains d "scrape" || strContains d "extract" then ["scraping"] else []) ++
    (if strContains d "test" then ["testing"] else []) ++
    (if strContains d "monitor" then ["monitoring"] else [])
  if r = [] then ["general"] else r

/-! ### Queue (`add_task`): append, then stable sort by descending priority -/

/-- Ordering used by `task_queue.sort(key=lambda t: t.priority.value, reverse=True)`:
a task may precede another when its priority value is at least as large. -/
def taskGe (a b : Task) : Prop := b.priority.value ≤ a.priority.value

instance : DecidableRel taskGe := fun a b => Nat.decLe b.priority.value a.priority.value

instance : IsTotal Task taskGe := ⟨fun a b => Nat.le_total b.priority.value a.priority.value⟩

instance : IsTrans Task taskGe := ⟨fun _ _ _ h1 h2 => le_trans h2 h1⟩

/-- Stable descending-priority sort: Python `list.sort` is a stable sort, so
its result coincides with insertion sort under `taskGe`. -/
def sortDesc (l : List Task) : List Task :=
  l.insertionSort taskGe

/-- Enqueue (`AgentManager.add_task`): stamp `created_at`, append, count,
re-sort by descending priority. -/
def addTask (now : ℚ) (s : ManagerState) (t : Task) : ManagerState :=
  let t' := { t with createdAt := some now }
  { s with
    taskQueue := sortDesc (s.taskQueue ++ [t'])
    stats := { s.stats with totalTasks := s.stats.totalTasks + 1 } }

/-! ### Dispatcher (`_task_distributor`, `_assign_task_to_agent`) -/

/-- Per-agent mutation performed by `_assign_task_to_agent`. -/
def assignAgentUpdate (now : ℚ) (t : Task) (a : Agent) : Agent :=
  { a with status := .busy, currentTask := some t.id, lastActivity := now }

/-- Dictionary insertion `self.active_tasks[task.id] = task`: replace an
existing entry with the same id, else append. -/
def upsertTask (l : List Task) (t : Task) : List Task :=
  if l.any (fun u => u.id = t.id) then
    l.map (fun u => if u.id = t.id then t else u)
  else l ++ [t]

/-- Assignment (`AgentManager._assign_task_to_agent`): mark the agent busy,
stamp the task, move it into the active map.  The executor invocation it
spawns is modelled separately by `executeTaskStep`. -/
def assignTaskToAgent (now : ℚ) (s : ManagerState) (t : Task) (aid : String) :
    ManagerState :=
  let t' := { t with assignedAgent := some aid, startedAt := some now }
  { s with
    agents := s.agents.map (fun a => if a.id = aid then assignAgentUpdate now t a else a)
    activeTasks := upsertTask s.activeTasks t' }

/-- Assignment loop of `_task_distributor`: `k` times, pop the queue head,
run the selector over the still-available identifiers; on success assign and
remove the chosen identifier, otherwise the popped task is simply dropped. -/
def assignLoop (now : ℚ) : Nat → ManagerState → List String → ManagerState
  | 0, s, _ => s
  | k + 1, s, avail =>
    match s.taskQueue with
    | [] => s
    | t :: rest =>
      let s1 := { s with taskQueue := rest }
      match selectBestAgent s.agents t avail with
      | some aid => assignLoop now k (assignTaskToAgent now s1 t aid) (avail.erase aid)
      | none => assignLoop now k s1 avail

/-- Identifiers of the currently idle agents, in map order. -/
def availableIds (s : ManagerState) : List String :=
  (s.agents.filter (fun a => a.status = .idle)).map (·.id)

/-- One pass of the dispatcher body (`AgentManager._task_distributor`):
nothing happens when the queue or the idle set is empty, otherwise
`min(queue length, idle count)` tasks are popped and assigned. -/
def distributorStep (now : ℚ) (s : ManagerState) : ManagerState :=
  if s.taskQueue.isEmpty then s
  else if (availableIds s).isEmpty then s
  else assignLoop now (min s.taskQueue.length (availableIds s).length) s (availableIds s)

/-! ### Executor completion (`_execute_task`) -/

/-- Task mutation of the normal completion path of `_execute_task`:
`completed_at` and `result` are always set; on a structured failure `error`
is additionally set from the result dictionary. -/
def applyOkCompletion (now : ℚ) (r : ExecResult) (t : Task) : Task :=
  let t1 := { t with completedAt := some now, result := some r }
  if r.success then t1
  else { t1 with errorField := some (r.errorMsg.getD "Unknown error") }

/-- Agent mutation of the normal completion path of `_execute_task`. -/
def applyOkAgent (now execTime : ℚ) (r : ExecResult) (a : Agent) : Agent :=
  let a1 := if r.success then { a with completedTasks := a.completedTasks + 1 }
            else { a with failedTasks := a.failedTasks + 1 }
  { a1 with
    status := .idle
    currentTask := none
    totalExecutionTime := a1.totalExecutionTime + execTime
    lastActivity := now }

/-- Task mutation of the exception path of `_execute_task`. -/
def applyExnTask (now : ℚ) (msg : String) (t : Task) : Task :=
  { t with errorField := some msg, completedAt := some now }

/-- Agent mutation of the exception path of `_execute_task`: status forced to
ERROR, failed count incremented; `current_task`, `total_execution_time` and
`last_activity` are left untouched. -/
def applyExnAgent (a : Agent) : Agent :=
  { a with status := .error, failedTasks := a.failedTasks + 1 }

/-- Completion step (`AgentManager._execute_task` after the executor call
returns or raises): update the task and its agent, adjust the counters, and
move the task from the active map to the completed list. -/
def executeTaskStep (now execTime : ℚ) (s : ManagerState) (t : Task) (aid : String)
    (out : ExecOutcome) : ManagerState :=
  match out with
  | .ok r =>
    { s with
      agents := s.agents.map (fun a => if a.id = aid then applyOkAgent now execTime r a else a)
      activeTasks := s.activeTasks.filter (fun u => u.id != t.id)
      completedTasks := s.completedTasks ++ [applyOkCompletion now r t]
      stats :=
        if r.success then { s.stats with completedTasks := s.stats.completedTasks + 1 }
        else { s.stats with failedTasks := s.stats.failedTasks + 1 } }
  | .exn msg =>
    { s with
      agents := s.agents.map (fun a => if a.id = aid then applyExnAgent a else a)
      activeTasks := s.activeTasks.filter (fun u => u.id != t.id)
      completedTasks := s.completedTasks ++ [applyExnTask now msg t]
      stats := { s.stats with failedTasks := s.stats.failedTasks + 1 } }

/-! ### Health monitor (`_agent_monitor`) -/

/-- Per-agent repair of one monitor sweep: a BUSY agent stale for more than
30 seconds is forced back to IDLE with its task cleared; an ERROR agent
stale for more than 10 seconds is recovered to IDLE. -/
def monitorAgent (now : ℚ) (a : Agent) : Agent :=
  if a.status = .busy then
    if now - a.lastActivity > 30 then { a with status := .idle, currentTask := none }
    else a
  else if a.status = .error then
    if now - a.lastActivity > 10 then { a with status := .idle }
    else a
  else a

/-- One monitor sweep over every agent (`AgentManager._agent_monitor` body). -/
def agentMonitorSweep (now : ℚ) (s : ManagerState) : ManagerState :=
  { s with agents := s.agents.map (monitorAgent now) }

/-! ### Performance tracker and status report -/

/-- Sum of all agents' cumulative execution times. -/
def totalAgentExecTime (s : ManagerState) : ℚ :=
  (s.agents.map (·.totalExecutionTime)).sum

/-- One pass of `AgentManager._performance_tracker`: recompute the average
execution time when at least one task has completed. -/
def performanceTrackerUpdate (s : ManagerState) : ManagerState :=
  if s.stats.completedTasks > 0 then
    { s with stats :=
        { s.stats with
          averageExecutionTime := totalAgentExecTime s / (s.stats.completedTasks : ℚ) } }
  else s

/-- Tasks-per-minute figure of `get_status_report`:
`completed / max(runtime / 60, 1)`. -/
def tasksPerMinute (now : ℚ) (s : ManagerState) : ℚ :=
  (s.stats.completedTasks : ℚ) / max ((now - s.stats.startTime) / 60) 1

/-! ### Initialisation (`AgentManager.initialize`) -/

/-- Fixed roster of agent configurations in `initialize`. -/
def agentConfigs : List (String × List String) :=
  [("WebScraper", ["scraping", "data_extraction", "screenshots"]),
   ("FormFiller", ["form_filling", "authentication", "validation"]),
   ("Tester", ["testing", "validation", "performance_monitoring"]),
   ("Monitor", ["monitoring", "health_checks", "reporting"]),
   ("GeneralPurpose", ["general", "backup", "flexible"])]

/-- Agents created by `initialize`: one per index below
`min(max_agents, len(agent_configs))`, each idle with zeroed counters. -/
def initAgents (maxAgents : Nat) (now : ℚ) : List Agent :=
  (List.range (min maxAgents agentConfigs.length)).map (fun i =>
    let c := agentConfigs.getD i ("", [])
    { id := "agent_" ++ toString (i + 1)
      name := c.1
      status := .idle
      currentTask := none
      completedTasks := 0
      failedTasks := 0
      totalExecutionTime := 0
      lastActivity := now
      capabilities := c.2 })

/-! ### Concrete sample data used by witnesses and counterexamples -/

/-- Zeroed statistics record. -/
def statsZero : Stats :=
  { totalTasks := 0, completedTasks := 0, failedTasks := 0
    averageExecutionTime := 0, startTime := 0 }

/-- Task whose description matches no capability keyword. -/
def tHello : Task :=
  { id := "t0", name := "plain", description := "hello", url := "u"
    actions := [], priority := .low, timeout := 1, retryCount := 0 }

/-- Task whose description matches the scraping keyword. -/
def tScrape : Task :=
  { id := "t1", name := "catalog", description := "Scrape the product catalog", url := "u"
    actions := ["navigate"], priority := .high, timeout := 30, retryCount := 2 }

/-- Heavily used unmatched agent: its selector score is
0·10 − 100·0.1 + (100/1000)·5 = −9.5 ≤ −1. -/
def aDecayed : Agent :=
  { id := "a1", name := "Decayed", status := .idle, currentTask := none
    completedTasks := 100, failedTasks := 900, totalExecutionTime := 0
    lastActivity := 0, capabilities := ["x"] }

/-- Fresh scraping-capable agent, score 1·10 + 5 = 15 on `tScrape`. -/
def aFresh : Agent :=
  { id := "a1", name := "WebScraper", status := .idle, currentTask := none
    completedTasks := 0, failedTasks := 0, totalExecutionTime := 0
    lastActivity := 0, capabilities := ["scraping", "data_extraction", "screenshots"] }

/-- Successful executor result. -/
def rGood : ExecResult := { success := true, errorMsg := none, executionTime := 1 }

/-- Structured executor failure. -/
def rBad : ExecResult := { success := false, errorMsg := some "boom", executionTime := 1 }

/-- Busy agent currently owning task `"t1"`. -/
def aBusyT : Agent :=
  { id := "a2", name := "Busy", status := .busy, currentTask := some "t1"
    completedTasks := 2, failedTasks := 1, totalExecutionTime := 7
    lastActivity := 5, capabilities := ["general"] }

/-- Reclaimed agent: the health monitor has already reset it to IDLE with no
current task, so no completing task can match `currentTask`. -/
def aReclaimed : Agent :=
  { id := "a1", name := "Reclaimed", status := .idle, currentTask := none
    completedTasks := 3, failedTasks := 1, totalExecutionTime := 4
    lastActivity := 40, capabilities := ["general"] }

/-- Delayed task whose completion arrives after its agent was reclaimed. -/
def tDelayed : Task :=
  { id := "t9", name := "late", description := "hello", url := "u"
    actions := [], priority := .normal, timeout := 1, retryCount := 0
    assignedAgent := some "a1", startedAt := some 1 }

/-- State in which `tDelayed` is still active but its agent was reclaimed. -/
def sRec : ManagerState :=
  { agents := [aReclaimed], taskQueue := [], activeTasks := [tDelayed]
    completedTasks := [], stats := statsZero }

/-- State exhibiting the selector-returns-none task drop: one queued task,
one idle agent whose score is below the `-1` initial best score. -/
def sDrop : ManagerState :=
  { agents := [aDecayed], taskQueue := [tHello], activeTasks := []
    completedTasks := [], stats := statsZero }

/-- Well-behaved one-task one-agent state for the dispatcher witness. -/
def sGood : ManagerState :=
  { agents := [aFresh], taskQueue := [tScrape], activeTasks := []
    completedTasks := [], stats := statsZero }

/-- Stale busy agent (last activity 31+ seconds ago at time 100). -/
def aBusyStale : Agent :=
  { id := "a3", name := "Stale", status := .busy, currentTask := some "t5"
    completedTasks := 1, failedTasks := 0, totalExecutionTime := 2
    lastActivity := 0, capabilities := ["general"] }

/-- Stale errored agent. -/
def aErrStale : Agent :=
  { id := "a4", name := "Err", status := .error, currentTask := none
    completedTasks := 1, failedTasks := 2, totalExecutionTime := 2
    lastActivity := 0, capabilities := ["general"] }

/-- State with one completed task and 30 seconds of runtime. -/
def sC9 : ManagerState :=
  { agents := [], taskQueue := [], activeTasks := [], completedTasks := []
    stats := { totalTasks := 1, completedTasks := 1, failedTasks := 0
               averageExecutionTime := 0, startTime := 0 } }

/-- First agent of the fixed roster, as built by `initAgents _ 0`. -/
def aInit0 : Agent :=
  { id := "agent_1", name := "WebScraper", status := .idle, currentTask := none
    completedTasks := 0, failedTasks := 0, totalExecutionTime := 0
    lastActivity := 0, capabilities := ["scraping", "data_extraction", "screenshots"] }

/-- Low-priority task for the queue-ordering scenario. -/
def tLow : Task :=
  { id := "L", name := "low", description := "hello", url := "u"
    actions := [], priority := .low, timeout := 1, retryCount := 0 }

/-- Critical-priority task for the queue-ordering scenario. -/
def tCrit : Task :=
  { id := "C", name := "crit", description := "hello", url := "u"
    actions := [], priority := .critical, timeout := 1, retryCount := 0 }

/-- Normal-priority task for the queue-ordering scenario. -/
def tNorm : Task :=
  { id := "N", name := "norm", description := "hello", url := "u"
    actions := [], priority := .normal, timeout := 1, retryCount := 0 }

/-- Empty manager state. -/
def sEmpty : ManagerState :=
  { agents := [], taskQueue := [], activeTasks := [], completedTasks := []
    stats := statsZero }

/-! ### Theorems -/

/-- Ordered insertion preserves, for each priority class, the filtered
subsequence: the inserted task lands in front of no task of its own class. -/
theorem filter_orderedInsert_priority (p : TaskPriority) (b : Task) (l : List Task) :
    (l.orderedInsert taskGe b).filter (fun u => u.priority = p) =
      if b.priority = p then b :: l.filter (fun u => u.priority = p)
      else l.filter (fun u => u.priority = p) := by
  induction l with
  | nil => by_cases hb : b.priority = p <;> simp [List.orderedInsert, hb]
  | cons y ys ih =>
    by_cases hr : taskGe b y
    · by_cases hb : b.priority = p <;>
        simp [List.orderedInsert, if_pos hr, List.filter_cons, hb]
    · have hby : b.priority.value < y.priority.value := by
        simpa [taskGe, not_le] using hr
      have hne : y.priority ≠ p → True := fun _ => trivial
      by_cases hb : b.priority = p
      · have hyp : ¬ y.priority = p := by
          intro hy
          have : y.priority.value = b.priority.value := by rw [hy, hb]
          omega
        simp [List.orderedInsert, if_neg hr, List.filter_cons, hb, hyp, ih]
      · by_cases hy : y.priority = p <;>
          simp [List.orderedInsert, if_neg hr, List.filter_cons, hb, hy, ih]

/-- Stability of the queue sort: each priority class keeps its original
relative order. -/
theorem filter_sortDesc_priority (p : TaskPriority) (l : List Task) :
    (sortDesc l).filter (fun u => u.priority = p) = l.filter (fun u => u.priority = p) := by
  induction l with
  | nil => rfl
  | cons b ys ih =>
    by_cases hb : b.priority = p <;>
      simp [sortDesc, List.insertionSort, filter_orderedInsert_priority, hb, ih,
        List.filter_cons] <;>
      simpa [sortDesc] using ih

/-- C6: `add_task` appends the stamped task and re-sorts the queue into
descending-priority order with a stable sort — the queue is a permutation of
the appended list, is sorted so the head dequeued by the dispatcher has
maximal priority, and each priority class keeps submission order; tasks
submitted in order [LOW, CRITICAL, NORMAL] are dequeued CRITICAL, NORMAL,
LOW. -/
theorem c6_priority_queue (now : ℚ) (s : ManagerState) (t : Task) :
    ((addTask now s t).taskQueue).Perm (s.taskQueue ++ [{ t with createdAt := some now }]) ∧
    List.Sorted taskGe (addTask now s t).taskQueue ∧
    (∀ p : TaskPriority,
      ((addTask now s t).taskQueue).filter (fun u => u.priority = p) =
        (s.taskQueue ++ [{ t with createdAt := some now }]).filter (fun u => u.priority = p)) ∧
    (addTask 0 (addTask 0 (addTask 0 sEmpty tLow) tCrit) tNorm).taskQueue.map (·.id) =
      ["C", "N", "L"] := by
  refine ⟨?_, ?_, ?_, by decide⟩
  · exact List.perm_insertionSort taskGe (s.taskQueue ++ [{ t with createdAt := some now }])
  · exact List.sorted_insertionSort taskGe (s.taskQueue ++ [{ t with createdAt := some now }])
  · intro p
    exact filter_sortDesc_priority p (s.taskQueue ++ [{ t with createdAt := some now }])

/-- C7: the selector's score equals the spec's formula — 10 × |capabilities ∩
required| plus the freshness bonus (+5 if no completed task, else −0.1 ×
completed) plus the reliability bonus 5 × completed/(completed+failed)
whenever completed+failed > 0 — and the required-capability set is derived by
the spec's keyword inference. -/
theorem c7_score_formula (t : Task) (a : Agent) :
    agentScore t a = specScore t a ∧ extractTaskRequirements t = specRequirements t := by
  refine ⟨?_, rfl⟩
  unfold agentScore specScore
  by_cases hc : a.completedTasks = 0
  · by_cases hf : a.failedTasks = 0
    · simp [hc, hf]
      ring
    · have hpos : 0 < a.completedTasks + a.failedTasks := by omega
      simp [hc, hpos]
      ring
  · have h1 : 0 < a.completedTasks := Nat.pos_of_ne_zero hc
    have h2 : 0 < a.completedTasks + a.failedTasks := by omega
    simp [hc, h1, h2]
    ring

/-- C10: `initialize` creates exactly `min n 5` agents — the roster has five
configurations — and each starts IDLE, with no current task and zeroed
completed, failed, and total-execution-time counters. -/
theorem c10_init_roster (n : Nat) (now : ℚ) :
    (initAgents n now).length = min n 5 ∧
    ∀ a ∈ initAgents n now,
      a.status = .idle ∧ a.currentTask = none ∧ a.completedTasks = 0 ∧
      a.failedTasks = 0 ∧ a.totalExecutionTime = 0 := by
  constructor
  · simp [initAgents, agentConfigs]
  · intro a ha
    simp only [initAgents, List.mem_map, List.mem_range] at ha
    obtain ⟨i, _, rfl⟩ := ha
    exact ⟨rfl, rfl, rfl, rfl, rfl⟩

/-- C10 witness: a pool of requested size 7 gets exactly five agents and its
first agent starts idle and zeroed. -/
theorem c10_init_roster_witness :
    ((initAgents 7 0).length = min 7 5 ∧
     (aInit0.status = .idle ∧ aInit0.currentTask = none ∧ aInit0.completedTasks = 0 ∧
      aInit0.failedTasks = 0 ∧ aInit0.totalExecutionTime = 0)) :=
  ⟨(c10_init_roster 7 0).1, (c10_init_roster 7 0).2 aInit0 (by decide)⟩

/-- C8: a monitor sweep forces a BUSY agent stale for more than 30 seconds to
IDLE with its current task cleared, recovers an ERROR agent stale for more
than 10 seconds to IDLE, leaves every other agent unchanged, and never
mutates any task collection. -/
theorem c8_monitor_sweep (now : ℚ) (a : Agent) (s : ManagerState) :
    (a.status = .busy → 30 < now - a.lastActivity →
      monitorAgent now a = { a with status := .idle, currentTask := none }) ∧
    (a.status = .busy → now - a.lastActivity ≤ 30 → monitorAgent now a = a) ∧
    (a.status = .error → 10 < now - a.lastActivity →
      monitorAgent now a = { a with status := .idle }) ∧
    (a.status = .error → now - a.lastActivity ≤ 10 → monitorAgent now a = a) ∧
    (a.status = .idle ∨ a.status = .offline → monitorAgent now a = a) ∧
    ((agentMonitorSweep now s).taskQueue = s.taskQueue ∧
     (agentMonitorSweep now s).activeTasks = s.activeTasks ∧
     (agentMonitorSweep now s).completedTasks = s.completedTasks) := by
  refine ⟨?_, ?_, ?_, ?_, ?_, rfl, rfl, rfl⟩
  · intro h1 h2
    simp [monitorAgent, h1, h2]
  · intro h1 h2
    simp [monitorAgent, h1, not_lt.mpr h2]
  · intro h1 h2
    simp [monitorAgent, h1, h2]
  · intro h1 h2
    simp [monitorAgent, h1, not_lt.mpr h2]
  · rintro (h1 | h1) <;> simp [monitorAgent, h1]

/-- C8 witness: at time 100 the sweep reclaims the stale busy agent and
recovers the stale errored agent. -/
theorem c8_monitor_sweep_witness :
    monitorAgent 100 aBusyStale = { aBusyStale with status := .idle, currentTask := none } ∧
    monitorAgent 100 aErrStale = { aErrStale with status := .idle } :=
  ⟨(c8_monitor_sweep 100 aBusyStale sRec).1 (by decide) (by decide),
   (c8_monitor_sweep 100 aErrStale sRec).2.2.1 (by decide) (by decide)⟩

/-- C2 counterexample: a structured failure populates `result` and `error`
simultaneously once `completed_at` is set, so result XOR error is violated
for failed executions. -/
theorem c2_counterexample :
    (applyOkCompletion 5 rBad tHello).completedAt = some 5 ∧
    (applyOkCompletion 5 rBad tHello).result = some rBad ∧
    (applyOkCompletion 5 rBad tHello).errorField = some "boom" := by
  decide

/-- C2 amended: once `completed_at` is set, a successful completion populates
`result` only and an executor exception populates `error` only, but a
structured failure populates both `result` and `error`. -/
theorem c2_result_error_population (now : ℚ) (t : Task) (r : ExecResult) (m : String)
    (h1 : t.result = none) (h2 : t.errorField = none) :
    ((applyOkCompletion now r t).completedAt = some now ∧
     (applyOkCompletion now r t).result = some r ∧
     (r.success = true → (applyOkCompletion now r t).errorField = none) ∧
     (r.success = false →
       (applyOkCompletion now r t).errorField = some (r.errorMsg.getD "Unknown error"))) ∧
    ((applyExnTask now m t).completedAt = some now ∧
     (applyExnTask now m t).result = none ∧
     (applyExnTask now m t).errorField = some m) := by
  unfold applyOkCompletion applyExnTask
  cases hr : r.success <;> simp [hr, h1, h2]

/-- C2 witness: the amended population pattern on a fresh task, for a
successful result and for an exception message. -/
theorem c2_result_error_population_witness :
    ((applyOkCompletion 5 rGood tHello).result = some rGood ∧
     (applyOkCompletion 5 rGood tHello).errorField = none) ∧
    ((applyExnTask 5 "crash" tHello).result = none ∧
     (applyExnTask 5 "crash" tHello).errorField = some "crash") := by
  have h := c2_result_error_population 5 tHello rGood "crash" (by decide) (by decide)
  exact ⟨⟨h.1.2.1, h.1.2.2.1 (by decide)⟩, ⟨h.2.2.1, h.2.2.2⟩⟩

/-- C3 counterexample: an executor exception forces the agent to ERROR while
leaving `current_task` set, so `current_task` is non-empty with status ≠
BUSY — the claimed iff fails after that operation. -/
theorem c3_counterexample :
    (applyExnAgent aBusyT).currentTask = some "t1" ∧
    (applyExnAgent aBusyT).status ≠ .busy := by
  decide

/-- C3 amended: `current_task` is non-empty iff status = BUSY after task
assignment, after structured completion, and after the monitor's stuck-BUSY
reclaim; but an executor exception sets status ERROR without clearing
`current_task`, and the subsequent ERROR-recovery sweep returns the agent to
IDLE still without clearing it. -/
theorem c3_busy_iff_current_task (now execTime : ℚ) (t : Task) (r : ExecResult) (a : Agent) :
    ((assignAgentUpdate now t a).status = .busy ∧
     (assignAgentUpdate now t a).currentTask = some t.id) ∧
    ((applyOkAgent now execTime r a).status = .idle ∧
     (applyOkAgent now execTime r a).currentTask = none) ∧
    ((applyExnAgent a).status = .error ∧
     (applyExnAgent a).currentTask = a.currentTask) ∧
    (a.status = .busy → 30 < now - a.lastActivity →
      (monitorAgent now a).status = .idle ∧ (monitorAgent now a).currentTask = none) ∧
    (a.status = .error → 10 < now - a.lastActivity →
      (monitorAgent now a).status = .idle ∧ (monitorAgent now a).currentTask = a.currentTask) := by
  refine ⟨⟨rfl, rfl⟩, ?_, ⟨rfl, rfl⟩, ?_, ?_⟩
  · unfold applyOkAgent
    cases r.success <;> simp
  · intro h1 h2
    simp [monitorAgent, h1, h2]
  · intro h1 h2
    simp [monitorAgent, h1, h2]

/-- C3 witness: the amended statement evaluated on the stale busy and stale
errored sample agents at time 100. -/
theorem c3_busy_iff_current_task_witness :
    ((monitorAgent 100 aBusyStale).status = .idle ∧
     (monitorAgent 100 aBusyStale).currentTask = none) ∧
    ((monitorAgent 100 aErrStale).status = .idle ∧
     (monitorAgent 100 aErrStale).currentTask = aErrStale.currentTask) :=
  ⟨(c3_busy_iff_current_task 100 1 tHello rGood aBusyStale).2.2.2.1 (by decide) (by decide),
   (c3_busy_iff_current_task 100 1 tHello rGood aErrStale).2.2.2.2 (by decide) (by decide)⟩

/-- C5 counterexample: the completing task `tDelayed` is no longer the
reclaimed agent's current task, yet applying its completion still mutates
the agent map — the claimed frame property fails. -/
theorem c5_counterexample :
    aReclaimed.currentTask ≠ some tDelayed.id ∧
    (executeTaskStep 50 2 sRec tDelayed "a1" (ExecOutcome.ok rGood)).agents ≠ sRec.agents := by
  decide

/-- C5 amended: the completion handler never re-checks ownership — its agent
update is insensitive to the agent's `current_task` value and always sets
status IDLE, clears `current_task`, stamps `last_activity`, accumulates the
execution time, and bumps the matching counter, reclaimed or not. -/
theorem c5_completion_ignores_ownership (now execTime : ℚ) (r : ExecResult) (a : Agent)
    (c : Option String) :
    (applyOkAgent now execTime r { a with currentTask := c } = applyOkAgent now execTime r a) ∧
    ((applyOkAgent now execTime r a).status = .idle ∧
     (applyOkAgent now execTime r a).currentTask = none ∧
     (applyOkAgent now execTime r a).lastActivity = now ∧
     (applyOkAgent now execTime r a).totalExecutionTime = a.totalExecutionTime + execTime ∧
     (r.success = true → (applyOkAgent now execTime r a).completedTasks = a.completedTasks + 1) ∧
     (r.success = false → (applyOkAgent now execTime r a).failedTasks = a.failedTasks + 1)) := by
  unfold applyOkAgent
  cases hr : r.success <;> simp [hr]

/-- C5 witness: the insensitivity equation and the forced mutations evaluated
on the reclaimed sample agent. -/
theorem c5_completion_ignores_ownership_witness :
    (applyOkAgent 50 2 rGood { aReclaimed with currentTask := some "other" } =
      applyOkAgent 50 2 rGood aReclaimed) ∧
    (applyOkAgent 50 2 rGood aReclaimed).completedTasks = aReclaimed.completedTasks + 1 :=
  ⟨(c5_completion_ignores_ownership 50 2 rGood aReclaimed (some "other")).1,
   (c5_completion_ignores_ownership 50 2 rGood aReclaimed (some "other")).2.2.2.2.2.1 (by decide)⟩

/-- C9 counterexample: with one completed task and 30 seconds of runtime the
report's tasks-per-minute is 1, not the claimed completed/elapsed-minutes
value 2. -/
theorem c9_counterexample :
    tasksPerMinute 30 sC9 = 1 ∧
    (sC9.stats.completedTasks : ℚ) / ((30 - sC9.stats.startTime) / 60) = 2 ∧
    (1 : ℚ) ≠ 2 := by
  decide

/-- C9 amended: a tracker pass sets average execution time to the sum of all
agents' total execution time divided by the completed count; tasks-per-minute
equals completed/elapsed-minutes only once at least a minute has elapsed, and
equals the completed count itself before that (the code divides by
`max(elapsed minutes, 1)`). -/
theorem c9_aggregate_stats (now : ℚ) (s : ManagerState) :
    (0 < s.stats.completedTasks →
      (performanceTrackerUpdate s).stats.averageExecutionTime =
        totalAgentExecTime s / (s.stats.completedTasks : ℚ)) ∧
    (60 ≤ now - s.stats.startTime →
      tasksPerMinute now s = (s.stats.completedTasks : ℚ) / ((now - s.stats.startTime) / 60)) ∧
    (now - s.stats.startTime ≤ 60 →
      tasksPerMinute now s = (s.stats.completedTasks : ℚ)) := by
  refine ⟨?_, ?_, ?_⟩
  · intro h
    simp [performanceTrackerUpdate, h]
  · intro h
    unfold tasksPerMinute
    rw [max_eq_left]
    rw [le_div_iff₀ (by norm_num : (0:ℚ) < 60)]
    linarith
  · intro h
    unfold tasksPerMinute
    rw [max_eq_right, div_one]
    rw [div_le_one (by norm_num : (0:ℚ) < 60)]
    linarith

/-- C9 witness: the amended statement at 120 seconds of runtime on the
one-completed-task state, and at 30 seconds of runtime. -/
theorem c9_aggregate_stats_witness :
    (performanceTrackerUpdate sC9).stats.averageExecutionTime =
      totalAgentExecTime sC9 / (sC9.stats.completedTasks : ℚ) ∧
    tasksPerMinute 120 sC9 = (sC9.stats.completedTasks : ℚ) / ((120 - sC9.stats.startTime) / 60) ∧
    tasksPerMinute 30 sC9 = (sC9.stats.completedTasks : ℚ) :=
  ⟨(c9_aggregate_stats 120 sC9).1 (by decide),
   (c9_aggregate_stats 120 sC9).2.1 (by decide),
   (c9_aggregate_stats 30 sC9).2.2 (by decide)⟩

/-- Characterisation of the selector loop: starting from accumulator
`(best, sc)`, it returns the first maximal candidate when that maximum
strictly beats `sc`, and the accumulator otherwise. -/
theorem selectGo_spec (agents : List Agent) (t : Task) :
    ∀ (l : List String) (best : Option String) (sc : ℚ),
      (∀ id ∈ l, (findAgent agents id).isSome) →
      (firstArgmax agents t l = none → selectGo agents t l best sc = best) ∧
      (∀ (j : String) (sj : ℚ), firstArgmax agents t l = some (j, sj) →
        selectGo agents t l best sc = if sj > sc then some j else best) := by
  intro l
  induction l with
  | nil =>
    intro best sc _
    exact ⟨fun _ => rfl, fun j sj hj => by simp [firstArgmax] at hj⟩
  | cons id rest ih =>
    intro best sc h
    obtain ⟨a, ha⟩ := Option.isSome_iff_exists.mp (h id (List.mem_cons_self id rest))
    have hrest : ∀ i ∈ rest, (findAgent agents i).isSome := fun i hi =>
      h i (List.mem_cons_of_mem _ hi)
    have hscore : scoreOf agents t id = agentScore t a := by simp [scoreOf, ha]
    have hL : ∀ (b : Option String) (s0 : ℚ),
        selectGo agents t (id :: rest) b s0 =
          if agentScore t a > s0 then selectGo agents t rest (some id) (agentScore t a)
          else selectGo agents t rest b s0 := by
      intro b s0
      simp [selectGo, ha]
    constructor
    · intro hnone
      exfalso
      cases hfa : firstArgmax agents t rest with
      | none => simp [firstArgmax, hfa] at hnone
      | some pair =>
        simp only [firstArgmax, hfa] at hnone
        split at hnone <;> simp at hnone
    · intro j sj hsome
      cases hfa : firstArgmax agents t rest with
      | none =>
        have hid : id = j ∧ agentScore t a = sj := by
          simpa [firstArgmax, hfa, hscore] using hsome
        obtain ⟨rfl, rfl⟩ := hid
        have hre : ∀ (b : Option String) (s0 : ℚ), selectGo agents t rest b s0 = b :=
          fun b s0 => (ih b s0 hrest).1 hfa
        rw [hL]
        by_cases hgt : agentScore t a > sc
        · rw [if_pos hgt, hre, if_pos hgt]
        · rw [if_neg hgt, hre, if_neg hgt]
      | some pair =>
        obtain ⟨j', sj'⟩ := pair
        by_cases hge : agentScore t a ≥ sj'
        · have hid : id = j ∧ agentScore t a = sj := by
            simpa [firstArgmax, hfa, hscore, hge] using hsome
          obtain ⟨rfl, rfl⟩ := hid
          rw [hL]
          by_cases hgt : agentScore t a > sc
          · rw [if_pos hgt, (ih (some id) (agentScore t a) hrest).2 j' sj' hfa,
              if_neg (by linarith : ¬ sj' > agentScore t a), if_pos hgt]
          · rw [if_neg hgt, (ih best sc hrest).2 j' sj' hfa,
              if_neg (by linarith : ¬ sj' > sc), if_neg hgt]
        · have hid : j' = j ∧ sj' = sj := by
            simpa [firstArgmax, hfa, hscore, hge] using hsome
          obtain ⟨rfl, rfl⟩ := hid
          have hlt : agentScore t a < sj' := not_le.mp hge
          rw [hL]
          by_cases hgt : agentScore t a > sc
          · rw [if_pos hgt, (ih (some id) (agentScore t a) hrest).2 j' sj' hfa,
              if_pos (by linarith : sj' > agentScore t a), if_pos (by linarith : sj' > sc)]
          · rw [if_neg hgt, (ih best sc hrest).2 j' sj' hfa]

/-- The spec-side first-argmax always yields a member of the candidate list
whose score bounds every candidate's score. -/
theorem firstArgmax_mem_max (agents : List Agent) (t : Task) :
    ∀ (l : List String) (j : String) (sj : ℚ),
      firstArgmax agents t l = some (j, sj) →
      j ∈ l ∧ ∀ i ∈ l, scoreOf agents t i ≤ sj := by
  intro l
  induction l with
  | nil => intro j sj h; simp [firstArgmax] at h
  | cons id rest ih =>
    intro j sj h
    cases hfa : firstArgmax agents t rest with
    | none =>
      have hrest : rest = [] := by
        cases rest with
        | nil => rfl
        | cons x xs =>
          cases hfb : firstArgmax agents t xs with
          | none => simp [firstArgmax, hfb] at hfa
          | some q =>
            simp only [firstArgmax, hfb] at hfa
            split at hfa <;> simp at hfa
      subst hrest
      simp only [firstArgmax] at h
      obtain ⟨rfl, rfl⟩ : j = id ∧ sj = scoreOf agents t id := by
        simpa using h.symm
      refine ⟨by simp, ?_⟩
      intro i hi
      rw [List.mem_singleton.mp hi]
    | some pair =>
      obtain ⟨j', sj'⟩ := pair
      have hbound := ih j' sj' hfa
      simp only [firstArgmax, hfa] at h
      by_cases hge : scoreOf agents t id ≥ sj'
      · rw [if_pos hge] at h
        obtain ⟨rfl, rfl⟩ : j = id ∧ sj = scoreOf agents t id := by
          simpa using h.symm
        refine ⟨List.mem_cons_self _ _, ?_⟩
        intro i hi
        rcases List.mem_cons.mp hi with rfl | hi
        · exact le_refl _
        · exact le_trans (hbound.2 i hi) hge
      · rw [if_neg hge] at h
        obtain ⟨rfl, rfl⟩ : j = j' ∧ sj = sj' := by
          simpa using h.symm
        refine ⟨List.mem_cons_of_mem _ hbound.1, ?_⟩
        intro i hi
        rcases List.mem_cons.mp hi with rfl | hi
        · linarith [not_le.mp hge]
        · exact hbound.2 i hi

/-- C4 counterexample: a non-empty candidate list on which the selector
returns none instead of the first maximal candidate — the lone candidate
scores −9.5, below the loop's initial best score of −1. -/
theorem c4_counterexample :
    ["a1"] ≠ ([] : List String) ∧
    selectBestAgent [aDecayed] tHello ["a1"] = none ∧
    firstArgmax [aDecayed] tHello ["a1"] = some ("a1", -19/2) := by
  decide

/-- C4 amended: the selector is pure and returns none on an empty candidate
list; on a non-empty list it returns the first candidate attaining the
maximal score provided that maximum exceeds −1, and none when every
candidate scores ≤ −1. -/
theorem c4_selector (agents : List Agent) (t : Task) (avail : List String)
    (h : ∀ id ∈ avail, (findAgent agents id).isSome) :
    (avail = [] → selectBestAgent agents t avail = none) ∧
    (∀ (j : String) (sj : ℚ), firstArgmax agents t avail = some (j, sj) → sj > -1 →
      selectBestAgent agents t avail = some j) ∧
    (∀ (j : String) (sj : ℚ), firstArgmax agents t avail = some (j, sj) → sj ≤ -1 →
      selectBestAgent agents t avail = none) := by
  refine ⟨?_, ?_, ?_⟩
  · rintro rfl
    rfl
  · intro j sj hj hgt
    rw [selectBestAgent, (selectGo_spec agents t avail none (-1) h).2 j sj hj, if_pos hgt]
  · intro j sj hj hle
    rw [selectBestAgent, (selectGo_spec agents t avail none (-1) h).2 j sj hj,
      if_neg (not_lt.mpr hle)]

/-- C4 witness: the amended characterisation evaluated on a resolvable
one-candidate list, where the selector picks the fresh scraping agent with
score 15. -/
theorem c4_selector_witness :
    selectBestAgent [aFresh] tScrape ["a1"] = some "a1" :=
  (c4_selector [aFresh] tScrape ["a1"] (by decide)).2.1 "a1" 15 (by decide) (by decide)

/-- Assignment only touches status, current task and last activity, so the
selector score of an agent is unchanged by it. -/
theorem agentScore_assignAgentUpdate (now : ℚ) (t u : Task) (a : Agent) :
    agentScore u (assignAgentUpdate now t a) = agentScore u a := rfl

/-- Agent lookup commutes with the per-agent assignment update map. -/
theorem findAgent_map_update (now : ℚ) (t : Task) (aid : String) :
    ∀ (agents : List Agent) (i : String),
      findAgent (agents.map (fun a => if a.id = aid then assignAgentUpdate now t a else a)) i =
        (findAgent agents i).map (fun a => if a.id = aid then assignAgentUpdate now t a else a) := by
  intro agents i
  induction agents with
  | nil => rfl
  | cons b bs ih =>
    have hid : (if b.id = aid then assignAgentUpdate now t b else b).id = b.id := by
      by_cases hb : b.id = aid <;> simp [hb, assignAgentUpdate]
    unfold findAgent at ih ⊢
    rw [List.map_cons]
    by_cases hbi : b.id = i
    · rw [List.find?_cons_of_pos _ (by rw [hid]; simp [hbi]),
        List.find?_cons_of_pos _ (by simp [hbi])]
      simp
    · rw [List.find?_cons_of_neg _ (by simp [hid, hbi]), List.find?_cons_of_neg _ (by simp [hbi])]
      exact ih

/-- Dictionary insertion of a task whose id is absent appends. -/
theorem upsertTask_eq_append (l : List Task) (t : Task) (h : t.id ∉ l.map (·.id)) :
    upsertTask l t = l ++ [t] := by
  unfold upsertTask
  rw [if_neg]
  intro hany
  rcases List.any_eq_true.mp hany with ⟨u, hu, hud⟩
  exact h (List.mem_map.mpr ⟨u, hu, by simpa using hud.symm⟩)

/-- A non-empty candidate list always has a first argmax. -/
theorem firstArgmax_cons_exists (agents : List Agent) (t : Task) (id : String)
    (rest : List String) :
    ∃ j sj, firstArgmax agents t (id :: rest) = some (j, sj) := by
  cases hfa : firstArgmax agents t rest with
  | none => exact ⟨id, scoreOf agents t id, by simp [firstArgmax, hfa]⟩
  | some pair =>
    by_cases hge : scoreOf agents t id ≥ pair.2
    · exact ⟨id, scoreOf agents t id, by simp [firstArgmax, hfa, hge]⟩
    · exact ⟨pair.1, pair.2, by simp [firstArgmax, hfa, hge]⟩

/-- When every candidate resolves and scores strictly above −1, the selector
succeeds and picks a member of the candidate list. -/
theorem selectBestAgent_success (agents : List Agent) (t : Task) (avail : List String)
    (hres : ∀ i ∈ avail, (findAgent agents i).isSome)
    (hne : avail ≠ [])
    (hsc : ∀ i ∈ avail, ∀ a, findAgent agents i = some a → agentScore t a > -1) :
    ∃ aid, selectBestAgent agents t avail = some aid ∧ aid ∈ avail := by
  cases avail with
  | nil => exact absurd rfl hne
  | cons i0 rest =>
    obtain ⟨j, sj, hfa⟩ := firstArgmax_cons_exists agents t i0 rest
    obtain ⟨hjmem, hmax⟩ := firstArgmax_mem_max agents t (i0 :: rest) j sj hfa
    obtain ⟨a0, ha0⟩ := Option.isSome_iff_exists.mp (hres i0 (List.mem_cons_self _ _))
    have hs0 : agentScore t a0 > -1 := hsc i0 (List.mem_cons_self _ _) a0 ha0
    have hsj : sj > -1 := by
      have hb := hmax i0 (List.mem_cons_self _ _)
      have hscore : scoreOf agents t i0 = agentScore t a0 := by simp [scoreOf, ha0]
      rw [hscore] at hb
      linarith
    have hsel := (selectGo_spec agents t (i0 :: rest) none (-1) hres).2 j sj hfa
    rw [if_pos hsj] at hsel
    exact ⟨j, hsel, hjmem⟩

/-- Moving an identifier from the middle collection to the back of the third
collection is a permutation of the concatenation. -/
theorem ids_move_perm (tid : String) (q act comp : List String)
    (hmem : tid ∈ act) (hnodup : act.Nodup) :
    (q ++ act.filter (fun i => i != tid) ++ (comp ++ [tid])).Perm (q ++ act ++ comp) := by
  refine List.perm_iff_count.mpr fun x => ?_
  by_cases hx : x = tid
  · subst hx
    have hc1 : act.count x = 1 := List.count_eq_one_of_mem hnodup hmem
    have hc0 : (act.filter (fun i => i != x)).count x = 0 := by
      rw [List.count_eq_zero]
      intro hmem2
      simpa using (List.mem_filter.mp hmem2).2
    simp [List.count_append, hc0, hc1, List.count_singleton]
    omega
  · have hcf : (act.filter (fun i => i != tid)).count x = act.count x :=
      List.count_filter (by simpa using hx)
    simp [List.count_append, hcf, List.count_singleton, Ne.symm hx]

/-- Appending an identifier to the middle collection while dropping it from
the head of the first collection is a permutation of the concatenation. -/
theorem ids_enqueue_perm (tid : String) (q act comp : List String) :
    (q ++ (act ++ [tid]) ++ comp).Perm ((tid :: q) ++ act ++ comp) := by
  refine List.perm_iff_count.mpr fun x => ?_
  by_cases hx : x = tid
  · simp [List.count_append, List.count_cons, List.count_singleton, hx]
    omega
  · simp [List.count_append, List.count_cons, List.count_singleton, Ne.symm hx]

/-- Identifier lists commute with the active-map removal filter. -/
theorem map_filter_ids (tid : String) :
    ∀ (l : List Task),
      (l.filter (fun u => u.id != tid)).map (·.id) = (l.map (·.id)).filter (fun i => i != tid) := by
  intro l
  induction l with
  | nil => rfl
  | cons y ys ih => by_cases hy : y.id = tid <;> simp [List.filter_cons, hy, ih]

/-- A completion step moves the completing task's id from the active map to
the completed list, preserving the multiset of task ids. -/
theorem executeTaskStep_taskIds (now execTime : ℚ) (s : ManagerState) (t : Task)
    (aid : String) (out : ExecOutcome)
    (hmem : t.id ∈ s.activeTasks.map (·.id))
    (hnodup : (s.activeTasks.map (·.id)).Nodup) :
    (executeTaskStep now execTime s t aid out).taskIds.Perm s.taskIds := by
  cases out with
  | ok r =>
    have hid : (applyOkCompletion now r t).id = t.id := by
      cases hr : r.success <;> simp [applyOkCompletion, hr]
    simp only [executeTaskStep, ManagerState.taskIds, List.map_append, map_filter_ids,
      List.map_cons, List.map_nil, hid]
    exact ids_move_perm t.id _ _ _ hmem hnodup
  | exn msg =>
    simp only [executeTaskStep, ManagerState.taskIds, List.map_append, map_filter_ids,
      List.map_cons, List.map_nil, applyExnTask]
    exact ids_move_perm t.id _ _ _ hmem hnodup

/-- The dispatcher's assignment loop preserves the multiset of task ids
provided the selector succeeds on every dequeued task, i.e. every available
candidate scores strictly above −1 against every queued task. -/
theorem assignLoop_taskIds (now : ℚ) :
    ∀ (k : Nat) (s : ManagerState) (avail : List String),
      k ≤ s.taskQueue.length →
      k ≤ avail.length →
      (∀ i ∈ avail, (findAgent s.agents i).isSome) →
      (∀ u ∈ s.taskQueue, ∀ i ∈ avail, ∀ a, findAgent s.agents i = some a →
        agentScore u a > -1) →
      (∀ u ∈ s.taskQueue, u.id ∉ s.activeTasks.map (·.id)) →
      (s.taskQueue.map (·.id)).Nodup →
      (assignLoop now k s avail).taskIds.Perm s.taskIds := by
  intro k
  induction k with
  | zero =>
    intro s avail _ _ _ _ _ _
    exact List.Perm.refl _
  | succ k ih =>
    intro s avail hk1 hk2 hres hsc hdisj hnodup
    cases hq : s.taskQueue with
    | nil =>
      rw [hq] at hk1
      exact absurd hk1 (by simp)
    | cons t rest =>
      have htmem : t ∈ s.taskQueue := by
        rw [hq]
        exact List.mem_cons_self _ _
      have hne : avail ≠ [] := by
        intro h0
        rw [h0] at hk2
        simp at hk2
      obtain ⟨aid, hsel, haid⟩ := selectBestAgent_success s.agents t avail hres hne
        (fun i hi a hfind => hsc t htmem i hi a hfind)
      have hstep : assignLoop now (k + 1) s avail =
          assignLoop now k (assignTaskToAgent now { s with taskQueue := rest } t aid)
            (avail.erase aid) := by
        simp only [assignLoop, hq, hsel]
      rw [hstep]
      set s1 := assignTaskToAgent now { s with taskQueue := rest } t aid with hs1
      have hq1 : s1.taskQueue = rest := rfl
      have hag : s1.agents =
          s.agents.map (fun a => if a.id = aid then assignAgentUpdate now t a else a) := rfl
      have htid : t.id ∉ s.activeTasks.map (·.id) := hdisj t htmem
      have hact : s1.activeTasks =
          s.activeTasks ++ [{ t with assignedAgent := some aid, startedAt := some now }] := by
        exact upsertTask_eq_append _ _ htid
      have hcomp : s1.completedTasks = s.completedTasks := rfl
      have hk1' : k ≤ s1.taskQueue.length := by
        rw [hq1]
        rw [hq] at hk1
        simpa using Nat.succ_le_succ_iff.mp (by simpa using hk1)
      have hk2' : k ≤ (avail.erase aid).length := by
        rw [List.length_erase_of_mem haid]
        omega
      have hres' : ∀ i ∈ avail.erase aid, (findAgent s1.agents i).isSome := by
        intro i hi
        rw [hag, findAgent_map_update]
        obtain ⟨a, ha⟩ := Option.isSome_iff_exists.mp (hres i (List.mem_of_mem_erase hi))
        rw [ha]
        rfl
      have hsc' : ∀ u ∈ s1.taskQueue, ∀ i ∈ avail.erase aid, ∀ a,
          findAgent s1.agents i = some a → agentScore u a > -1 := by
        intro u hu i hi a hfind
        have hmem2 := List.mem_of_mem_erase hi
        rw [hag, findAgent_map_update] at hfind
        obtain ⟨b, hb⟩ := Option.isSome_iff_exists.mp (hres i hmem2)
        rw [hb] at hfind
        have hfind2 : (if b.id = aid then assignAgentUpdate now t b else b) = a := by
          simpa using hfind
        have hu2 : u ∈ s.taskQueue := by
          rw [hq]
          exact List.mem_cons_of_mem _ (by rwa [hq1] at hu)
        have hub : agentScore u b > -1 := hsc u hu2 i hmem2 b hb
        rw [← hfind2]
        by_cases hba : b.id = aid
        · simpa [hba, agentScore_assignAgentUpdate] using hub
        · simpa [hba] using hub
      have hdisj' : ∀ u ∈ s1.taskQueue, u.id ∉ s1.activeTasks.map (·.id) := by
        intro u hu
        rw [hq1] at hu
        rw [hact]
        simp only [List.map_append, List.mem_append, List.map_cons, List.map_nil]
        rintro (h | h)
        · exact hdisj u (by rw [hq]; exact List.mem_cons_of_mem _ hu) h
        · have huid : u.id = t.id := by simpa using h
          have h2 := hnodup
          rw [hq, List.map_cons] at h2
          exact (List.nodup_cons.mp h2).1 (huid ▸ List.mem_map.mpr ⟨u, hu, rfl⟩)
      have hnodup' : (s1.taskQueue.map (·.id)).Nodup := by
        rw [hq1]
        have h2 := hnodup
        rw [hq, List.map_cons] at h2
        exact (List.nodup_cons.mp h2).2
      refine (ih s1 (avail.erase aid) hk1' hk2' hres' hsc' hdisj' hnodup').trans ?_
      show s1.taskIds.Perm s.taskIds
      unfold ManagerState.taskIds
      rw [hq1, hact, hcomp, hq, List.map_append]
      simpa using ids_enqueue_perm t.id (rest.map (·.id)) (s.activeTasks.map (·.id))
        (s.completedTasks.map (·.id))

/-- C1 counterexample: a reachable state with one queued task and one idle
agent in which a dispatcher pass leaves the task in none of the three
collections — the selector returns none (the lone candidate scores −9.5 ≤
−1), so the popped task is dropped. -/
theorem c1_counterexample :
    sDrop.taskIds = ["t0"] ∧ (distributorStep 0 sDrop).taskIds = [] := by
  decide

/-- C1 amended: provided the selector succeeds for every dequeued task
(every idle agent scores strictly above −1 against every queued task, which
the code does not guarantee in general), a dispatcher pass permutes the
multiset of task ids across {queue, active, completed} — dequeued tasks move
to the active map, none are lost or duplicated — and a completion step moves
the completing task's id from the active map to the completed list. -/
theorem c1_task_conservation (now execTime : ℚ) (s : ManagerState)
    (hagents : (s.agents.map (·.id)).Nodup)
    (hsc : ∀ u ∈ s.taskQueue, ∀ a ∈ s.agents, a.status = .idle → agentScore u a > -1)
    (hdisj : ∀ u ∈ s.taskQueue, u.id ∉ s.activeTasks.map (·.id))
    (hqn : (s.taskQueue.map (·.id)).Nodup) :
    (distributorStep now s).taskIds.Perm s.taskIds ∧
    ∀ (t : Task) (aid : String) (out : ExecOutcome),
      t.id ∈ s.activeTasks.map (·.id) → (s.activeTasks.map (·.id)).Nodup →
      (executeTaskStep now execTime s t aid out).taskIds.Perm s.taskIds := by
  constructor
  · unfold distributorStep
    split
    · exact List.Perm.refl _
    · split
      · exact List.Perm.refl _
      · refine assignLoop_taskIds now _ s (availableIds s) (min_le_left _ _) (min_le_right _ _)
          ?_ ?_ hdisj hqn
        · intro i hi
          obtain ⟨a, ha, rfl⟩ := List.mem_map.mp hi
          have hafil := List.mem_filter.mp ha
          exact List.find?_isSome.mpr ⟨a, hafil.1, by simp⟩
        · intro u hu i hi a hfind
          obtain ⟨b, hbfil, rfl⟩ := List.mem_map.mp hi
          have hb := List.mem_filter.mp hbfil
          have hbidle : b.status = .idle := by simpa using hb.2
          have hamem : a ∈ s.agents := List.mem_of_find?_eq_some hfind
          have haid : a.id = b.id := by simpa using List.find?_some hfind
          have hab : a = b := List.inj_on_of_nodup_map hagents hamem hb.1 haid
          rw [hab]
          exact hsc u hu b hb.1 hbidle
  · intro t aid out hmem hnd
    exact executeTaskStep_taskIds now execTime s t aid out hmem hnd

/-- C1 witness: on the well-behaved one-task one-agent state the dispatcher
pass preserves the task-id multiset, and a completion step on the
reclaimed-agent state moves the delayed task's id to the completed list. -/
theorem c1_task_conservation_witness :
    (distributorStep 0 sGood).taskIds.Perm sGood.taskIds ∧
    (executeTaskStep 50 2 sRec tDelayed "a1" (ExecOutcome.ok rGood)).taskIds.Perm
      sRec.taskIds := by
  have h := c1_task_conservation 0 2 sGood (by decide) (by decide) (by decide) (by decide)
  have h2 := c1_task_conservation 50 2 sRec (by decide) (by decide) (by decide) (by decide)
  exact ⟨h.1, h2.2 tDelayed "a1" (ExecOutcome.ok rGood) (by decide) (by decide)⟩

end MultiAgent
